import Mathlib

/-!
Verification of the chain-life Strava CLI (src/main.rs) against its
natural-language specification.

The embedding models:
* `extract_auth_code`: the OAuth redirect-URL validation (state check,
  error check, code extraction) over the URL's query pairs.
* `fetch_strava_data_since`: the paginated fetch-and-aggregate loop,
  with the remote server modelled as a function from page number to
  either an error body (non-success HTTP status) or a page of
  activities, and recursion made explicit with fuel.
* `parse_activity_types`: expansion of comma-separated shorthand tokens.
* `parse_date` and the chrono date/time conversions used by the fetch.

Rust `f64` distances are modelled as `ℚ`: the claims under study concern
the aggregation structure (what is summed, when the unit conversion
happens), not floating-point rounding.
-/

namespace ChainLife

/-! ## Query-pair access

`extract_auth_code` collects `url.query_pairs()` into a `HashMap`, so for a
repeated key the last occurrence wins.  `getParam` reproduces exactly that
insert-then-lookup semantics on an association list of query pairs. -/

def getParam (pairs : List (String × String)) (key : String) : Option String :=
  pairs.foldl (fun acc p => if p.1 = key then some p.2 else acc) none

/-- Rust `extract_auth_code` from src/main.rs lines 260-285, after
`Url::parse` has produced the query pairs: verify the `state` parameter
when present, then check for an `error` parameter, then extract `code`. -/
def extract_auth_code (query_pairs : List (String × String))
    (expected_state : String) : Except String String :=
  match getParam query_pairs "state" with
  | some st =>
    if st = expected_state then
      match getParam query_pairs "error" with
      | some e => Except.error ("Authorization error: " ++ e)
      | none =>
        match getParam query_pairs "code" with
        | some c => Except.ok c
        | none => Except.error "No authorization code found in redirect URL"
    else
      Except.error "State parameter mismatch. Possible CSRF attack."
  | none =>
    match getParam query_pairs "error" with
    | some e => Except.error ("Authorization error: " ++ e)
    | none =>
      match getParam query_pairs "code" with
      | some c => Except.ok c
      | none => Except.error "No authorization code found in redirect URL"

/-- Claim C1: `extract_auth_code` returns the code when the state parameter
equals the expected state and a code parameter is present (and no error
parameter, which is checked before code extraction); it fails when a state
parameter is present and differs from the expected state, even if a code is
present; it fails when an error parameter is present; and it fails when
neither a code nor an error parameter is present. -/
theorem extract_auth_code_cases (qp : List (String × String)) (es : String) :
    (∀ c, getParam qp "state" = some es → getParam qp "error" = none →
      getParam qp "code" = some c → extract_auth_code qp es = Except.ok c)
    ∧ (∀ st, getParam qp "state" = some st → st ≠ es →
      ∀ c, extract_auth_code qp es ≠ Except.ok c)
    ∧ (∀ e, getParam qp "error" = some e →
      ∀ c, extract_auth_code qp es ≠ Except.ok c)
    ∧ (getParam qp "code" = none → getParam qp "error" = none →
      ∀ c, extract_auth_code qp es ≠ Except.ok c) := by
  refine ⟨?_, ?_, ?_, ?_⟩
  · intro c hst herr hc
    simp [extract_auth_code, hst, herr, hc]
  · intro st hst hne c
    simp [extract_auth_code, hst, hne]
  · intro e herr c
    cases hst : getParam qp "state" with
    | none => simp [extract_auth_code, hst, herr]
    | some st =>
      by_cases h : st = es
      · simp [extract_auth_code, hst, herr, h]
      · simp [extract_auth_code, hst, h]
  · intro hc herr c
    cases hst : getParam qp "state" with
    | none => simp [extract_auth_code, hst, herr, hc]
    | some st =>
      by_cases h : st = es
      · simp [extract_auth_code, hst, herr, hc, h]
      · simp [extract_auth_code, hst, h]

/-- Witness for C1: the success clause applied at a concrete redirect. -/
theorem extract_auth_code_cases_witness :
    extract_auth_code [("state", "s1"), ("code", "abc123")] "s1" =
      Except.ok "abc123" :=
  (extract_auth_code_cases [("state", "s1"), ("code", "abc123")] "s1").1
    "abc123" (by decide) (by decide) (by decide)

/-- Counterexample to C2 as stated: a redirect URL that carries no state
parameter at all is not rejected; `extract_auth_code` still returns the
code, so the flow proceeds past redirect validation without a matching
state. -/
theorem extract_auth_code_no_state_accepted :
    extract_auth_code [("code", "abc123")] "expected-state" =
      Except.ok "abc123" := rfl

/-- Claim C2, amended: `extract_auth_code` never returns a code when the
redirect URL carries a state parameter that differs from the expected
state; whenever a code is returned and a state parameter is present, that
state equals the expected state exactly.  A redirect that lacks a state
parameter entirely is, however, not rejected: the state check is skipped
and a code may still be returned. -/
theorem extract_auth_code_state_guard (qp : List (String × String))
    (es c : String) (h : extract_auth_code qp es = Except.ok c) :
    ∀ st, getParam qp "state" = some st → st = es := by
  intro st hst
  by_contra hne
  exact (extract_auth_code_cases qp es).2.1 st hst hne c h

/-- Witness for the amended C2 at a concrete matching redirect. -/
theorem extract_auth_code_state_guard_witness :
    "s1" = "s1" :=
  extract_auth_code_state_guard [("state", "s1"), ("code", "abc123")]
    "s1" "abc123" rfl "s1" (by decide)

/-- Claim C9: when the state parameter differs from the expected state and
an error parameter is also present, `extract_auth_code` fails with the
state-mismatch error, not the authorization-error failure: the state check
runs first. -/
theorem extract_auth_code_state_before_error (qp : List (String × String))
    (es st e : String) (hst : getParam qp "state" = some st) (hne : st ≠ es)
    (_herr : getParam qp "error" = some e) :
    extract_auth_code qp es =
      Except.error "State parameter mismatch. Possible CSRF attack." := by
  simp [extract_auth_code, hst, hne]

/-- Witness for C9 at a concrete redirect with both a wrong state and an
error parameter. -/
theorem extract_auth_code_state_before_error_witness :
    extract_auth_code [("state", "wrong"), ("error", "access_denied")] "s1" =
      Except.error "State parameter mismatch. Possible CSRF attack." :=
  extract_auth_code_state_before_error
    [("state", "wrong"), ("error", "access_denied")] "s1" "wrong"
    "access_denied" (by decide) (by decide) (by decide)

/-! ## The paginated fetch loop

`fetch_strava_data_since` (src/main.rs lines 322-426) requests pages from
the activities endpoint starting at page 1 with `per_page = 200`, breaks on
an empty page, filters each activity by `allowed_types`, accumulates the
distance sum and the included/excluded counts, breaks when a page is
shorter than `per_page`, and finally divides the meter total by 1000.

The remote server is a function `pages : Nat → Except String (List
Activity)`: `Except.error body` models a non-success HTTP status with the
given raw response body, `Except.ok acts` a deserialized page.  The
unbounded `loop` is embedded with explicit fuel: `none` means the fuel ran
out before the loop finished. -/

structure Activity where
  id : Int
  name : String
  distance : ℚ
  moving_time : Int
  elapsed_time : Int
  total_elevation_gain : ℚ
  activity_type : String
  start_date : String
deriving DecidableEq, Repr

/-- The three loop accumulators of `fetch_strava_data_since`:
`total_distance` (meters), `total_activities` (included count),
`filtered_activities` (excluded count). -/
structure FetchAcc where
  total_distance : ℚ
  total_activities : Nat
  filtered_activities : Nat
deriving DecidableEq, Repr

def per_page : Nat := 200

/-- The body of the `for activity in &activities` loop: include the
activity's distance if its type is in `allowed_types`, else count it as
filtered out. -/
def stepActivity (allowed_types : List String) (acc : FetchAcc)
    (a : Activity) : FetchAcc :=
  if allowed_types.contains a.activity_type then
    { acc with total_distance := acc.total_distance + a.distance,
               total_activities := acc.total_activities + 1 }
  else
    { acc with filtered_activities := acc.filtered_activities + 1 }

/-- One page of the `for` loop over the fetched activities. -/
def processPage (allowed_types : List String) (acc : FetchAcc)
    (acts : List Activity) : FetchAcc :=
  acts.foldl (stepActivity allowed_types) acc

/-- The `loop` of `fetch_strava_data_since`: request the current page; a
non-success status fails the whole call with the raw body; an empty page
breaks; otherwise process the page, break if it was shorter than
`per_page`, else continue with the next page number. -/
def fetchLoop (pages : Nat → Except String (List Activity))
    (allowed_types : List String) :
    Nat → Nat → FetchAcc → Option (Except String FetchAcc)
  | 0, _, _ => none
  | fuel + 1, page, acc =>
    match pages page with
    | Except.error e => some (Except.error ("Strava API error: " ++ e))
    | Except.ok acts =>
      if acts.isEmpty then
        some (Except.ok acc)
      else
        let acc2 := processPage allowed_types acc acts
        if acts.length < per_page then
          some (Except.ok acc2)
        else
          fetchLoop pages allowed_types fuel (page + 1) acc2

/-- `fetch_strava_data_since`: run the page loop from page 1 with zeroed
accumulators and convert the final meter total to kilometers once at the
end. -/
def fetch_strava_data_since (pages : Nat → Except String (List Activity))
    (allowed_types : List String) (fuel : Nat) : Option (Except String ℚ) :=
  (fetchLoop pages allowed_types fuel 1 ⟨0, 0, 0⟩).map
    (fun r => r.map (fun acc => acc.total_distance / 1000))

/-! ### The list of activities a fetch run traverses

`fetchedActivities` replays the page loop, collecting the pages it
processes instead of aggregating them; it lets the aggregate be stated as
one sum over all fetched activities. -/

def fetchedActivities (pages : Nat → Except String (List Activity)) :
    Nat → Nat → Option (Except String (List Activity))
  | 0, _ => none
  | fuel + 1, page =>
    match pages page with
    | Except.error e => some (Except.error e)
    | Except.ok acts =>
      if acts.isEmpty then
        some (Except.ok [])
      else if acts.length < per_page then
        some (Except.ok acts)
      else
        (fetchedActivities pages fuel (page + 1)).map
          (fun r => r.map (fun rest => acts ++ rest))

/-- Sum of the distances of the activities whose type passes the filter. -/
def includedSum (allowed_types : List String) (l : List Activity) : ℚ :=
  ((l.filter (fun a => allowed_types.contains a.activity_type)).map
    Activity.distance).sum

/-- Number of activities that pass the filter. -/
def includedCount (allowed_types : List String) (l : List Activity) : Nat :=
  (l.filter (fun a => allowed_types.contains a.activity_type)).length

/-- Number of activities the filter excludes. -/
def excludedCount (allowed_types : List String) (l : List Activity) : Nat :=
  (l.filter (fun a => !allowed_types.contains a.activity_type)).length

theorem includedSum_cons (al : List String) (a : Activity) (l : List Activity) :
    includedSum al (a :: l) =
      (if al.contains a.activity_type then a.distance else 0)
        + includedSum al l := by
  by_cases h : a.activity_type ∈ al <;>
    simp [includedSum, List.filter_cons, h]

theorem includedCount_cons (al : List String) (a : Activity) (l : List Activity) :
    includedCount al (a :: l) =
      (if al.contains a.activity_type then 1 else 0) + includedCount al l := by
  by_cases h : a.activity_type ∈ al <;>
    simp [includedCount, List.filter_cons, h, Nat.add_comm]

theorem excludedCount_cons (al : List String) (a : Activity) (l : List Activity) :
    excludedCount al (a :: l) =
      (if al.contains a.activity_type then 0 else 1) + excludedCount al l := by
  by_cases h : a.activity_type ∈ al <;>
    simp [excludedCount, List.filter_cons, h, Nat.add_comm]

theorem includedSum_append (al : List String) (xs ys : List Activity) :
    includedSum al (xs ++ ys) = includedSum al xs + includedSum al ys := by
  simp [includedSum, List.filter_append]

theorem includedCount_append (al : List String) (xs ys : List Activity) :
    includedCount al (xs ++ ys) = includedCount al xs + includedCount al ys := by
  simp [includedCount, List.filter_append]

theorem excludedCount_append (al : List String) (xs ys : List Activity) :
    excludedCount al (xs ++ ys) = excludedCount al xs + excludedCount al ys := by
  simp [excludedCount, List.filter_append]

theorem processPage_eq (allowed_types : List String) (acts : List Activity) :
    ∀ acc, processPage allowed_types acc acts =
      ⟨acc.total_distance + includedSum allowed_types acts,
       acc.total_activities + includedCount allowed_types acts,
       acc.filtered_activities + excludedCount allowed_types acts⟩ := by
  induction acts with
  | nil => intro acc; simp [processPage, includedSum, includedCount, excludedCount]
  | cons a rest ih =>
    intro acc
    simp only [processPage, List.foldl_cons] at ih ⊢
    rw [ih (stepActivity allowed_types acc a), includedSum_cons,
      includedCount_cons, excludedCount_cons]
    by_cases h : allowed_types.contains a.activity_type <;>
      simp only [stepActivity, h, if_true, if_false, Bool.false_eq_true,
        FetchAcc.mk.injEq] <;>
      refine ⟨by ring, by omega, by omega⟩

/-- A successful run of the page loop aggregates exactly the activities
that `fetchedActivities` traverses: the meter total grows by the filtered
distance sum, and the two counters by the matching and non-matching
activity counts. -/
theorem fetchLoop_spec (pages : Nat → Except String (List Activity))
    (allowed_types : List String) :
    ∀ fuel page acc acc2,
      fetchLoop pages allowed_types fuel page acc = some (Except.ok acc2) →
      ∃ l, fetchedActivities pages fuel page = some (Except.ok l) ∧
        acc2 = ⟨acc.total_distance + includedSum allowed_types l,
                acc.total_activities + includedCount allowed_types l,
                acc.filtered_activities + excludedCount allowed_types l⟩ := by
  intro fuel
  induction fuel with
  | zero => intro page acc acc2 h; simp [fetchLoop] at h
  | succ n ih =>
    intro page acc acc2 h
    cases hp : pages page with
    | error e =>
      simp [fetchLoop, hp] at h
    | ok acts =>
      by_cases he : acts.isEmpty
      · refine ⟨[], ?_, ?_⟩
        · simp [fetchedActivities, hp, he]
        · simp [fetchLoop, hp, he] at h
          simp [← h, includedSum, includedCount, excludedCount]
      · by_cases hl : acts.length < per_page
        · refine ⟨acts, ?_, ?_⟩
          · simp [fetchedActivities, hp, he, hl]
          · simp [fetchLoop, hp, he, hl] at h
            rw [← h, processPage_eq]
        · simp only [fetchLoop, hp, he, if_false, hl, Bool.false_eq_true] at h
          obtain ⟨l, hl2, hacc⟩ := ih (page + 1)
            (processPage allowed_types acc acts) acc2 h
          refine ⟨acts ++ l, ?_, ?_⟩
          · simp [fetchedActivities, hp, he, hl, hl2, Except.map]
          · rw [hacc, processPage_eq, includedSum_append,
              includedCount_append, excludedCount_append]
            simp [FetchAcc.mk.injEq, add_assoc]

/-- If some page `N` reachable within the fuel budget returns a short page,
the loop halts with some result: every step either stops (error, empty or
short page) or moves to the next page number, and page `N` stops it at the
latest. -/
theorem fetchLoop_halts (pages : Nat → Except String (List Activity))
    (allowed_types : List String) (N : Nat) :
    ∀ fuel page acc, page ≤ N → N < fuel + page →
      (∃ acts, pages N = Except.ok acts ∧ acts.length < per_page) →
      ∃ r, fetchLoop pages allowed_types fuel page acc = some r := by
  intro fuel
  induction fuel with
  | zero => intro page acc h1 h2 _; omega
  | succ n ih =>
    intro page acc h1 h2 hN
    cases hp : pages page with
    | error e =>
      exact ⟨Except.error ("Strava API error: " ++ e), by simp [fetchLoop, hp]⟩
    | ok acts =>
      by_cases he : acts.isEmpty
      · exact ⟨Except.ok acc, by simp [fetchLoop, hp, he]⟩
      · by_cases hl : acts.length < per_page
        · exact ⟨Except.ok (processPage allowed_types acc acts),
            by simp [fetchLoop, hp, he, hl]⟩
        · have hpageN : page ≠ N := by
            rintro rfl
            obtain ⟨acts2, hok, hshort⟩ := hN
            rw [hp] at hok
            cases hok
            exact hl hshort
          obtain ⟨r, hr⟩ := ih (page + 1)
            (processPage allowed_types acc acts) (by omega) (by omega) hN
          exact ⟨r, by simp [fetchLoop, hp, he, hl, hr]⟩

/-- A non-success HTTP response stops the loop at once with the raw body
wrapped in the API error message. -/
theorem fetchLoop_error_page (pages : Nat → Except String (List Activity))
    (allowed_types : List String) (fuel page : Nat) (acc : FetchAcc)
    (e : String) (hp : pages page = Except.error e) :
    fetchLoop pages allowed_types (fuel + 1) page acc =
      some (Except.error ("Strava API error: " ++ e)) := by
  simp [fetchLoop, hp]

/-- An empty page stops the loop with the accumulators untouched. -/
theorem fetchLoop_empty_page (pages : Nat → Except String (List Activity))
    (allowed_types : List String) (fuel page : Nat) (acc : FetchAcc)
    (hp : pages page = Except.ok []) :
    fetchLoop pages allowed_types (fuel + 1) page acc =
      some (Except.ok acc) := by
  simp [fetchLoop, hp]

/-- A nonempty page shorter than `per_page` is processed and then stops the
loop. -/
theorem fetchLoop_short_page (pages : Nat → Except String (List Activity))
    (allowed_types : List String) (fuel page : Nat) (acc : FetchAcc)
    (acts : List Activity) (hp : pages page = Except.ok acts)
    (hne : acts ≠ []) (hl : acts.length < per_page) :
    fetchLoop pages allowed_types (fuel + 1) page acc =
      some (Except.ok (processPage allowed_types acc acts)) := by
  have he : acts.isEmpty = false := by
    cases acts with
    | nil => exact absurd rfl hne
    | cons a l => rfl
  simp [fetchLoop, hp, he, hl]

/-- A page not shorter than `per_page` is processed and the loop continues
with the next page number. -/
theorem fetchLoop_full_page (pages : Nat → Except String (List Activity))
    (allowed_types : List String) (fuel page : Nat) (acc : FetchAcc)
    (acts : List Activity) (hp : pages page = Except.ok acts)
    (hne : acts ≠ []) (hl : ¬acts.length < per_page) :
    fetchLoop pages allowed_types (fuel + 1) page acc =
      fetchLoop pages allowed_types fuel (page + 1)
        (processPage allowed_types acc acts) := by
  have he : acts.isEmpty = false := by
    cases acts with
    | nil => exact absurd rfl hne
    | cons a l => rfl
  simp [fetchLoop, hp, he, hl]

/-- Claim C3: the page loop stops exactly on an empty page (an independent
stop condition, leaving the accumulators untouched) or on a page shorter
than `per_page`; a page of exactly `per_page` items causes one more
request, with the page number incremented by one; and under the assumption
that some reachable page is shorter than `per_page`, the loop terminates
with a result. -/
theorem fetch_pagination_termination
    (pages : Nat → Except String (List Activity))
    (allowed_types : List String) (fuel page : Nat) (acc : FetchAcc) :
    (∀ acts, pages page = Except.ok acts → acts = [] →
      fetchLoop pages allowed_types (fuel + 1) page acc =
        some (Except.ok acc))
    ∧ (∀ acts, pages page = Except.ok acts → acts ≠ [] →
      acts.length < per_page →
      fetchLoop pages allowed_types (fuel + 1) page acc =
        some (Except.ok (processPage allowed_types acc acts)))
    ∧ (∀ acts, pages page = Except.ok acts → acts.length = per_page →
      fetchLoop pages allowed_types (fuel + 1) page acc =
        fetchLoop pages allowed_types fuel (page + 1)
          (processPage allowed_types acc acts))
    ∧ (∀ N, page ≤ N → N < fuel + page →
      (∃ acts, pages N = Except.ok acts ∧ acts.length < per_page) →
      ∃ r, fetchLoop pages allowed_types fuel page acc = some r) := by
  refine ⟨?_, ?_, ?_, ?_⟩
  · rintro acts hp rfl
    exact fetchLoop_empty_page pages allowed_types fuel page acc hp
  · intro acts hp hne hl
    exact fetchLoop_short_page pages allowed_types fuel page acc acts hp hne hl
  · intro acts hp hlen
    have hne : acts ≠ [] := by
      intro h
      rw [h] at hlen
      simp [per_page] at hlen
    exact fetchLoop_full_page pages allowed_types fuel page acc acts hp hne
      (by omega)
  · intro N h1 h2 hN
    exact fetchLoop_halts pages allowed_types N fuel page acc h1 h2 hN

/-- Witness for C3: on a server whose first page is empty, the loop stops
at once with the accumulators untouched; on a server of full pages up to a
short page 3, the loop halts within the fuel budget. -/
theorem fetch_pagination_termination_witness :
    fetchLoop (fun _ => Except.ok []) ["Run"] 1 1 ⟨0, 0, 0⟩ =
      some (Except.ok ⟨0, 0, 0⟩) :=
  (fetch_pagination_termination (fun _ => Except.ok []) ["Run"] 0 1
    ⟨0, 0, 0⟩).1 [] rfl rfl

/-! ### Concrete servers used in the witnesses -/

def runActivity : Activity :=
  ⟨1, "Morning Run", 1000, 3600, 3600, 10, "Run", "2024-01-02T07:00:00Z"⟩

def rideActivity : Activity :=
  ⟨2, "Evening Ride", 2000, 3600, 3600, 20, "Ride", "2024-01-03T18:00:00Z"⟩

/-- A server whose only activities are one run and one ride, on page 1. -/
def onePageServer : Nat → Except String (List Activity) :=
  fun p => if p = 1 then Except.ok [runActivity, rideActivity] else Except.ok []

/-- A server with no activities at all. -/
def emptyServer : Nat → Except String (List Activity) :=
  fun _ => Except.ok []

/-- A server that answers every page request with a non-success status
whose body is "boom". -/
def failingServer : Nat → Except String (List Activity) :=
  fun _ => Except.error "boom"

/-- The loop on the concrete one-page server with the "Run" filter ends
with 1000 meters, one included and one excluded activity. -/
theorem onePageServer_loop :
    fetchLoop onePageServer ["Run"] 2 1 ⟨0, 0, 0⟩ =
      some (Except.ok ⟨1000, 1, 1⟩) := by
  rw [fetchLoop_short_page onePageServer ["Run"] 1 1 ⟨0, 0, 0⟩
    [runActivity, rideActivity] rfl (by simp) (by decide)]
  simp [processPage, stepActivity, runActivity, rideActivity,
    (by decide : (["Run"] : List String).contains "Run" = true),
    (by decide : (["Run"] : List String).contains "Ride" = false)]

/-- Claim C4: a successful fetch returns exactly the sum of the distances
of the fetched activities whose type passes the filter, converted from
meters to kilometers by a single division at the end; the two counters
count the matching and non-matching activities.  On the concrete one-page
server (distances 1000 "Run" and 2000 "Ride") with `allowed_types =
["Run"]` the result is 1 km with one included and one excluded activity,
and an empty first page yields the success result 0. -/
theorem fetch_aggregation_correct
    (pages : Nat → Except String (List Activity))
    (allowed_types : List String) (fuel : Nat) (q : ℚ) :
    (fetch_strava_data_since pages allowed_types fuel =
        some (Except.ok q) →
      ∃ l, fetchedActivities pages fuel 1 = some (Except.ok l) ∧
        q = includedSum allowed_types l / 1000 ∧
        fetchLoop pages allowed_types fuel 1 ⟨0, 0, 0⟩ =
          some (Except.ok ⟨includedSum allowed_types l,
            includedCount allowed_types l, excludedCount allowed_types l⟩))
    ∧ fetch_strava_data_since onePageServer ["Run"] 2 = some (Except.ok 1)
    ∧ fetchLoop onePageServer ["Run"] 2 1 ⟨0, 0, 0⟩ =
        some (Except.ok ⟨1000, 1, 1⟩)
    ∧ fetch_strava_data_since emptyServer allowed_types (fuel + 1) =
        some (Except.ok 0) := by
  have hstep := onePageServer_loop
  refine ⟨?_, ?_, hstep, ?_⟩
  · intro h
    unfold fetch_strava_data_since at h
    cases hL : fetchLoop pages allowed_types fuel 1 ⟨0, 0, 0⟩ with
    | none => rw [hL] at h; simp at h
    | some r =>
      rw [hL] at h
      cases r with
      | error e => simp [Except.map] at h
      | ok acc =>
        have h2 : acc.total_distance / 1000 = q := by
          simpa [Except.map] using h
        obtain ⟨l, hl, hacc⟩ :=
          fetchLoop_spec pages allowed_types fuel 1 ⟨0, 0, 0⟩ acc hL
        subst h2
        refine ⟨l, hl, ?_, ?_⟩
        · rw [hacc]
          simp
        · rw [hacc]
          simp
  · unfold fetch_strava_data_since
    rw [hstep]
    simp [Except.map]
  · unfold fetch_strava_data_since
    rw [fetchLoop_empty_page emptyServer allowed_types fuel 1 ⟨0, 0, 0⟩ rfl]
    simp [Except.map]

/-- Witness for C4: the general aggregation clause applied to the concrete
one-page server, recovering the 1 km total from the traversed list. -/
theorem fetch_aggregation_correct_witness :
    ∃ l, fetchedActivities onePageServer 2 1 = some (Except.ok l) ∧
      (1 : ℚ) = includedSum ["Run"] l / 1000 ∧
      fetchLoop onePageServer ["Run"] 2 1 ⟨0, 0, 0⟩ =
        some (Except.ok ⟨includedSum ["Run"] l,
          includedCount ["Run"] l, excludedCount ["Run"] l⟩) :=
  (fetch_aggregation_correct onePageServer ["Run"] 2 1).1
    ((fetch_aggregation_correct onePageServer ["Run"] 2 1).2.1)

/-- If every page before `p` was a full page and the request for page `p`
receives a non-success status with body `e`, the loop result is exactly the
error wrapping that body. -/
theorem fetchLoop_error (pages : Nat → Except String (List Activity))
    (allowed_types : List String) (p : Nat) (e : String) :
    ∀ fuel page acc, page ≤ p → p < fuel + page →
      (∀ q, page ≤ q → q < p → ∃ acts, pages q = Except.ok acts ∧
        acts ≠ [] ∧ ¬acts.length < per_page) →
      pages p = Except.error e →
      fetchLoop pages allowed_types fuel page acc =
        some (Except.error ("Strava API error: " ++ e)) := by
  intro fuel
  induction fuel with
  | zero => intro page acc h1 h2 _ _; omega
  | succ n ih =>
    intro page acc h1 h2 hfull herr
    by_cases hpq : page = p
    · subst hpq
      simp [fetchLoop, herr]
    · obtain ⟨acts, hok, hne, hlong⟩ := hfull page le_rfl (by omega)
      have he : acts.isEmpty = false := by
        cases acts with
        | nil => exact absurd rfl hne
        | cons a l => rfl
      have := ih (page + 1) (processPage allowed_types acc acts)
        (by omega) (by omega)
        (fun q hq1 hq2 => hfull q (by omega) hq2) herr
      simp [fetchLoop, hok, he, hlong, this]

/-- Claim C5: a non-success HTTP status on any page request fails the whole
fetch with an error carrying the raw response body; no kilometers total is
returned.  (The loop issues exactly one request per page and propagates the
failure immediately, so no retry is attempted.) -/
theorem fetch_http_error_aborts
    (pages : Nat → Except String (List Activity))
    (allowed_types : List String) (fuel p : Nat) (e : String)
    (h1 : 1 ≤ p) (h2 : p ≤ fuel)
    (hfull : ∀ q, 1 ≤ q → q < p → ∃ acts, pages q = Except.ok acts ∧
      acts ≠ [] ∧ ¬acts.length < per_page)
    (herr : pages p = Except.error e) :
    fetch_strava_data_since pages allowed_types fuel =
      some (Except.error ("Strava API error: " ++ e))
    ∧ ∀ q : ℚ, fetch_strava_data_since pages allowed_types fuel ≠
        some (Except.ok q) := by
  have hL := fetchLoop_error pages allowed_types p e fuel 1 ⟨0, 0, 0⟩
    h1 (by omega) hfull herr
  constructor
  · unfold fetch_strava_data_since
    rw [hL]
    rfl
  · intro q hq
    unfold fetch_strava_data_since at hq
    rw [hL] at hq
    simp [Except.map] at hq

/-- Witness for C5: the failing server aborts the fetch on page 1 with its
raw body, and returns no kilometers value. -/
theorem fetch_http_error_aborts_witness :
    fetch_strava_data_since failingServer ["Run"] 1 =
        some (Except.error ("Strava API error: " ++ "boom"))
    ∧ ∀ q : ℚ, fetch_strava_data_since failingServer ["Run"] 1 ≠
        some (Except.ok q) :=
  fetch_http_error_aborts failingServer ["Run"] 1 1 "boom"
    le_rfl le_rfl (fun q hq1 hq2 => absurd hq1 (by omega)) rfl

/-! ## The unfiltered fetch mode (claim C7)

src/main.rs always filters by `allowed_types`; the plain-fetch code path
the spec refers to lives in the repository's other evolutionary versions,
which are not under src/. -/

/-- Modelled from the spec: the unfiltered activity step of the plain-fetch
code path (present in the repository's other program versions, missing from
src/): every activity's distance is added to the running total and counted
as included; nothing is filtered out. -/
def stepActivityAll (acc : FetchAcc) (a : Activity) : FetchAcc :=
  { acc with total_distance := acc.total_distance + a.distance,
             total_activities := acc.total_activities + 1 }

/-- Modelled from the spec: one page of the unfiltered fetch. -/
def processPageAll (acc : FetchAcc) (acts : List Activity) : FetchAcc :=
  acts.foldl stepActivityAll acc

/-- Modelled from the spec: the unfiltered page loop, identical to
`fetchLoop` except that every activity is included. -/
def fetchLoopAll (pages : Nat → Except String (List Activity)) :
    Nat → Nat → FetchAcc → Option (Except String FetchAcc)
  | 0, _, _ => none
  | fuel + 1, page, acc =>
    match pages page with
    | Except.error e => some (Except.error ("Strava API error: " ++ e))
    | Except.ok acts =>
      if acts.isEmpty then
        some (Except.ok acc)
      else
        let acc2 := processPageAll acc acts
        if acts.length < per_page then
          some (Except.ok acc2)
        else
          fetchLoopAll pages fuel (page + 1) acc2

/-- Modelled from the spec: the fetch operation with the filter optional.
When the caller supplies `allowed_types` the filtered path of src/main.rs
runs; when it does not, the plain-fetch path runs unfiltered. -/
def fetch_strava_data_maybe_filtered
    (pages : Nat → Except String (List Activity))
    (allowed? : Option (List String)) (fuel : Nat) :
    Option (Except String ℚ) :=
  match allowed? with
  | some allowed_types => fetch_strava_data_since pages allowed_types fuel
  | none =>
    (fetchLoopAll pages fuel 1 ⟨0, 0, 0⟩).map
      (fun r => r.map (fun acc => acc.total_distance / 1000))

theorem processPageAll_eq (acts : List Activity) :
    ∀ acc, processPageAll acc acts =
      ⟨acc.total_distance + (acts.map Activity.distance).sum,
       acc.total_activities + acts.length,
       acc.filtered_activities⟩ := by
  induction acts with
  | nil => intro acc; simp [processPageAll]
  | cons a rest ih =>
    intro acc
    simp only [processPageAll, List.foldl_cons] at ih ⊢
    rw [ih (stepActivityAll acc a)]
    simp [stepActivityAll, FetchAcc.mk.injEq]
    constructor
    · ring
    · omega

/-- A successful unfiltered run aggregates every traversed activity:
the total is the full distance sum, the included count is the list length,
and nothing is ever filtered out. -/
theorem fetchLoopAll_spec (pages : Nat → Except String (List Activity)) :
    ∀ fuel page acc acc2,
      fetchLoopAll pages fuel page acc = some (Except.ok acc2) →
      ∃ l, fetchedActivities pages fuel page = some (Except.ok l) ∧
        acc2 = ⟨acc.total_distance + (l.map Activity.distance).sum,
                acc.total_activities + l.length,
                acc.filtered_activities⟩ := by
  intro fuel
  induction fuel with
  | zero => intro page acc acc2 h; simp [fetchLoopAll] at h
  | succ n ih =>
    intro page acc acc2 h
    cases hp : pages page with
    | error e =>
      simp [fetchLoopAll, hp] at h
    | ok acts =>
      by_cases he : acts.isEmpty
      · refine ⟨[], ?_, ?_⟩
        · simp [fetchedActivities, hp, he]
        · simp [fetchLoopAll, hp, he] at h
          simp [← h]
      · by_cases hl : acts.length < per_page
        · refine ⟨acts, ?_, ?_⟩
          · simp [fetchedActivities, hp, he, hl]
          · simp [fetchLoopAll, hp, he, hl] at h
            rw [← h, processPageAll_eq]
        · simp only [fetchLoopAll, hp, he, if_false, hl,
            Bool.false_eq_true] at h
          obtain ⟨l, hl2, hacc⟩ := ih (page + 1)
            (processPageAll acc acts) acc2 h
          refine ⟨acts ++ l, ?_, ?_⟩
          · simp [fetchedActivities, hp, he, hl, hl2, Except.map]
          · rw [hacc, processPageAll_eq]
            simp [FetchAcc.mk.injEq, add_assoc]

/-- Claim C7: the fetch supports both a filtered and an unfiltered mode.
Supplying `allowed_types` runs exactly the filtered fetch of src/main.rs;
omitting it applies no type filter: a successful unfiltered fetch includes
every fetched activity's distance in the total, counts them all as
included, and filters nothing out. -/
theorem fetch_optional_filter_modes
    (pages : Nat → Except String (List Activity)) (fuel : Nat) :
    (∀ allowed_types,
      fetch_strava_data_maybe_filtered pages (some allowed_types) fuel =
        fetch_strava_data_since pages allowed_types fuel)
    ∧ (∀ q : ℚ,
      fetch_strava_data_maybe_filtered pages none fuel =
          some (Except.ok q) →
      ∃ l, fetchedActivities pages fuel 1 = some (Except.ok l) ∧
        q = (l.map Activity.distance).sum / 1000 ∧
        fetchLoopAll pages fuel 1 ⟨0, 0, 0⟩ =
          some (Except.ok ⟨(l.map Activity.distance).sum, l.length, 0⟩)) := by
  constructor
  · intro allowed_types
    rfl
  · intro q h
    unfold fetch_strava_data_maybe_filtered at h
    cases hL : fetchLoopAll pages fuel 1 ⟨0, 0, 0⟩ with
    | none => rw [hL] at h; simp at h
    | some r =>
      rw [hL] at h
      cases r with
      | error e => simp [Except.map] at h
      | ok acc =>
        have h2 : acc.total_distance / 1000 = q := by
          simpa [Except.map] using h
        obtain ⟨l, hl, hacc⟩ := fetchLoopAll_spec pages fuel 1 ⟨0, 0, 0⟩ acc hL
        subst h2
        refine ⟨l, hl, ?_, ?_⟩
        · rw [hacc]
          simp
        · rw [hacc]
          simp

/-- The unfiltered loop on the one-page server includes both activities
for 3000 meters. -/
theorem onePageServer_loopAll :
    fetchLoopAll onePageServer 2 1 ⟨0, 0, 0⟩ =
      some (Except.ok ⟨3000, 2, 0⟩) := by
  have he : ([runActivity, rideActivity] : List Activity).isEmpty = false := rfl
  have hl : ([runActivity, rideActivity] : List Activity).length < per_page := by
    decide
  simp only [fetchLoopAll, show onePageServer 1 =
    Except.ok [runActivity, rideActivity] from rfl, he, hl, if_true,
    Bool.false_eq_true, if_false]
  simp [processPageAll, stepActivityAll, runActivity, rideActivity]
  norm_num

/-- Witness for C7: the unfiltered clause applied to the one-page server,
whose unfiltered total is 3 km over both activities. -/
theorem fetch_optional_filter_modes_witness :
    ∃ l, fetchedActivities onePageServer 2 1 = some (Except.ok l) ∧
      (3 : ℚ) = (l.map Activity.distance).sum / 1000 ∧
      fetchLoopAll onePageServer 2 1 ⟨0, 0, 0⟩ =
        some (Except.ok ⟨(l.map Activity.distance).sum, l.length, 0⟩) :=
  (fetch_optional_filter_modes onePageServer 2).2 3 (by
    unfold fetch_strava_data_maybe_filtered
    rw [onePageServer_loopAll]
    simp [Except.map]
    norm_num)

/-! ## Accumulator monotonicity (claim C8) -/

theorem includedSum_nonneg (al : List String) (l : List Activity)
    (h : ∀ x ∈ l, 0 ≤ x.distance) : 0 ≤ includedSum al l := by
  apply List.sum_nonneg
  intro d hd
  simp only [includedSum, List.mem_map, List.mem_filter] at hd
  obtain ⟨a, ⟨ha, _⟩, rfl⟩ := hd
  exact h a ha

/-- Componentwise ordering of the fetch accumulators. -/
def accLE (x y : FetchAcc) : Prop :=
  x.total_distance ≤ y.total_distance
    ∧ x.total_activities ≤ y.total_activities
    ∧ x.filtered_activities ≤ y.filtered_activities

theorem accLE_refl (x : FetchAcc) : accLE x x :=
  ⟨le_refl _, le_refl _, le_refl _⟩

theorem accLE_trans {x y z : FetchAcc} (h1 : accLE x y) (h2 : accLE y z) :
    accLE x z :=
  ⟨le_trans h1.1 h2.1, le_trans h1.2.1 h2.2.1, le_trans h1.2.2 h2.2.2⟩

theorem stepActivity_mono (allowed_types : List String) (acc : FetchAcc)
    (a : Activity) (h : 0 ≤ a.distance) :
    accLE acc (stepActivity allowed_types acc a) := by
  by_cases hc : allowed_types.contains a.activity_type
  · simp only [stepActivity, hc, if_true]
    exact ⟨le_add_of_nonneg_right h, Nat.le_succ _, le_refl _⟩
  · simp only [stepActivity, hc, Bool.false_eq_true, if_false]
    exact ⟨le_refl _, le_refl _, Nat.le_succ _⟩

theorem processPage_mono (allowed_types : List String) (acc : FetchAcc)
    (acts : List Activity) (h : ∀ x ∈ acts, 0 ≤ x.distance) :
    accLE acc (processPage allowed_types acc acts) := by
  rw [processPage_eq]
  exact ⟨le_add_of_nonneg_right (includedSum_nonneg allowed_types acts h),
    Nat.le_add_right _ _, Nat.le_add_right _ _⟩

/-- Across a whole successful run of the page loop, none of the three
accumulators ever decreases, provided every served activity's distance is
non-negative. -/
theorem fetchLoop_mono (pages : Nat → Except String (List Activity))
    (allowed_types : List String)
    (hnn : ∀ p l x, pages p = Except.ok l → x ∈ l → 0 ≤ x.distance) :
    ∀ fuel page acc acc2,
      fetchLoop pages allowed_types fuel page acc = some (Except.ok acc2) →
      accLE acc acc2 := by
  intro fuel
  induction fuel with
  | zero => intro page acc acc2 h; simp [fetchLoop] at h
  | succ n ih =>
    intro page acc acc2 h
    cases hp : pages page with
    | error e => simp [fetchLoop, hp] at h
    | ok acts =>
      by_cases he : acts.isEmpty
      · simp [fetchLoop, hp, he] at h
        rw [← h]
        exact accLE_refl acc
      · by_cases hl : acts.length < per_page
        · simp [fetchLoop, hp, he, hl] at h
          rw [← h]
          exact processPage_mono allowed_types acc acts
            (fun x hx => hnn page acts x hp hx)
        · simp only [fetchLoop, hp, he, if_false, hl, Bool.false_eq_true] at h
          exact accLE_trans
            (processPage_mono allowed_types acc acts
              (fun x hx => hnn page acts x hp hx))
            (ih (page + 1) (processPage allowed_types acc acts) acc2 h)

/-- Claim C8: under non-negative activity distances, the three loop
accumulators are monotonically non-decreasing at the activity step, at the
page step, and across the whole page loop; and the meter total is turned
into kilometers exactly once, after the loop has ended, by the final
division of the run's accumulator. -/
theorem fetch_accumulators_monotone
    (pages : Nat → Except String (List Activity))
    (allowed_types : List String) (fuel page : Nat) (acc acc2 : FetchAcc)
    (a : Activity) (acts : List Activity) :
    (0 ≤ a.distance → accLE acc (stepActivity allowed_types acc a))
    ∧ ((∀ x ∈ acts, 0 ≤ x.distance) →
      accLE acc (processPage allowed_types acc acts))
    ∧ ((∀ p l x, pages p = Except.ok l → x ∈ l → 0 ≤ x.distance) →
      fetchLoop pages allowed_types fuel page acc = some (Except.ok acc2) →
      accLE acc acc2)
    ∧ (fetchLoop pages allowed_types fuel 1 ⟨0, 0, 0⟩ =
        some (Except.ok acc2) →
      fetch_strava_data_since pages allowed_types fuel =
        some (Except.ok (acc2.total_distance / 1000))) := by
  refine ⟨stepActivity_mono allowed_types acc a,
    processPage_mono allowed_types acc acts,
    fun hnn h => fetchLoop_mono pages allowed_types hnn fuel page acc acc2 h,
    fun h => ?_⟩
  unfold fetch_strava_data_since
  rw [h]
  rfl

/-- Every activity the one-page server serves has a non-negative
distance. -/
theorem onePageServer_nonneg :
    ∀ p l x, onePageServer p = Except.ok l → x ∈ l → 0 ≤ x.distance := by
  intro p l x hp hx
  unfold onePageServer at hp
  by_cases hp1 : p = 1
  · rw [if_pos hp1] at hp
    cases hp
    rcases hx with _ | ⟨_, hx⟩
    · norm_num [runActivity]
    · rcases hx with _ | ⟨_, hx⟩
      · norm_num [rideActivity]
      · cases hx
  · rw [if_neg hp1] at hp
    cases hp
    cases hx

/-- Witness for C8: the loop-level monotonicity clause applied to the
one-page server run, whose accumulators grow from zero to 1000 meters, one
included and one excluded activity. -/
theorem fetch_accumulators_monotone_witness :
    accLE ⟨0, 0, 0⟩ ⟨1000, 1, 1⟩ :=
  (fetch_accumulators_monotone onePageServer ["Run"] 2 1 ⟨0, 0, 0⟩
    ⟨1000, 1, 1⟩ runActivity []).2.2.1 onePageServer_nonneg onePageServer_loop

/-! ## Activity-type resolution (claim C6)

`parse_activity_types` (src/main.rs lines 429-460) splits its input on
commas, trims each segment, skips empty segments, matches the lowercased
segment against the shorthand tokens, and passes any other segment through
unchanged.  Rust's `split(',')`, `trim` and `to_lowercase` are modelled
character-wise. -/

def CYCLING_TYPES : List String :=
  ["Ride", "VirtualRide", "EBikeRide", "MountainBikeRide", "GravelRide",
   "Handcycle"]

def RUNNING_TYPES : List String :=
  ["Run", "TrailRun", "Treadmill", "VirtualRun"]

def OTHER_TYPES : List String :=
  ["Walk", "Hike", "Swim", "Rowing", "Kayaking", "Canoeing",
   "StandUpPaddling", "Surfing", "Kitesurf", "Windsurf", "Sail",
   "Snowboard", "Ski", "BackcountrySki", "NordicSki", "Snowshoe",
   "RockClimbing", "IceClimbing", "AlpineSki", "Elliptical",
   "StairStepper", "WeightTraining", "Workout", "Crossfit", "Yoga", "Golf"]

/-- Rust `str::split(sep)` on a single separator character: splits the
character list, keeping empty segments (so the empty input gives one empty
segment, as in Rust). -/
def splitChars (sep : Char) : List Char → List (List Char)
  | [] => [[]]
  | c :: cs =>
    match splitChars sep cs with
    | [] => [[c]]
    | seg :: rest =>
      if c = sep then [] :: seg :: rest else (c :: seg) :: rest

def splitOnChar (sep : Char) (s : String) : List String :=
  (splitChars sep s.data).map List.asString

/-- Rust `str::trim`: drop whitespace from both ends. -/
def trimStr (s : String) : String :=
  (((s.data.dropWhile Char.isWhitespace).reverse.dropWhile
    Char.isWhitespace).reverse).asString

/-- Rust `str::to_lowercase` restricted to the per-character case mapping
(the segments under study are ASCII). -/
def lowerStr (s : String) : String :=
  (s.data.map Char.toLower).asString

/-- The `for part in input.split(',')` loop of `parse_activity_types`,
with `types` as the accumulator. -/
def collectTypes : List String → List String → List String
  | acc, [] => acc
  | acc, part :: rest =>
    let p := trimStr part
    if p = "" then
      collectTypes acc rest
    else
      match lowerStr p with
      | "cycling" => collectTypes (acc ++ CYCLING_TYPES) rest
      | "running" => collectTypes (acc ++ RUNNING_TYPES) rest
      | "all" =>
        collectTypes (acc ++ (CYCLING_TYPES ++ RUNNING_TYPES ++ OTHER_TYPES)) rest
      | _ => collectTypes (acc ++ [p]) rest

/-- Rust `parse_activity_types`: expand the comma-separated segments and
fail if nothing remains. -/
def parse_activity_types (input : String) : Except String (List String) :=
  let types := collectTypes [] (splitOnChar ',' input)
  if types = [] then Except.error "No valid activity types specified"
  else Except.ok types

/-- Everything already accumulated stays in the result. -/
theorem collectTypes_acc_subset :
    ∀ parts acc x, x ∈ acc → x ∈ collectTypes acc parts := by
  intro parts
  induction parts with
  | nil => intro acc x hx; simpa [collectTypes] using hx
  | cons part rest ih =>
    intro acc x hx
    simp only [collectTypes]
    split
    · exact ih acc x hx
    · split
      · exact ih _ x (List.mem_append_left _ hx)
      · exact ih _ x (List.mem_append_left _ hx)
      · exact ih _ x (List.mem_append_left _ hx)
      · exact ih _ x (List.mem_append_left _ hx)

/-- A non-shorthand, nonempty segment is passed through: its trimmed form
is in the accumulated result, with its case preserved. -/
theorem collectTypes_passthrough :
    ∀ parts acc seg, seg ∈ parts → trimStr seg ≠ "" →
      lowerStr (trimStr seg) ≠ "cycling" →
      lowerStr (trimStr seg) ≠ "running" →
      lowerStr (trimStr seg) ≠ "all" →
      trimStr seg ∈ collectTypes acc parts := by
  intro parts
  induction parts with
  | nil => intro acc seg h; cases h
  | cons part rest ih =>
    intro acc seg hmem hne h1 h2 h3
    rcases List.mem_cons.mp hmem with rfl | hmem2
    · simp only [collectTypes]
      rw [if_neg hne]
      exact collectTypes_acc_subset rest _ _
        (List.mem_append_right _ (List.mem_singleton.mpr rfl))
    · simp only [collectTypes]
      split
      · exact ih acc seg hmem2 hne h1 h2 h3
      · split
        · exact ih _ seg hmem2 hne h1 h2 h3
        · exact ih _ seg hmem2 hne h1 h2 h3
        · exact ih _ seg hmem2 hne h1 h2 h3
        · exact ih _ seg hmem2 hne h1 h2 h3

/-- Claim C6: `parse_activity_types` splits on commas, trims and drops
empty segments, and matches case-insensitively: "cycling" resolves to the
cycling tags (containing "Ride", "VirtualRide", "EBikeRide"); "running" to
the running tags (containing "Run", "TrailRun"); "cycling,Run,Walk" to the
cycling tags plus "Run" and "Walk"; a non-shorthand segment passes through
trimmed with its case preserved; and empty or all-whitespace input fails
with the no-activity-types error. -/
theorem parse_activity_types_resolution :
    (parse_activity_types "cycling" = Except.ok CYCLING_TYPES
      ∧ "Ride" ∈ CYCLING_TYPES ∧ "VirtualRide" ∈ CYCLING_TYPES
      ∧ "EBikeRide" ∈ CYCLING_TYPES)
    ∧ (parse_activity_types "running" = Except.ok RUNNING_TYPES
      ∧ "Run" ∈ RUNNING_TYPES ∧ "TrailRun" ∈ RUNNING_TYPES)
    ∧ parse_activity_types "cycling,Run,Walk" =
        Except.ok (CYCLING_TYPES ++ ["Run", "Walk"])
    ∧ parse_activity_types " Cycling , Run " =
        Except.ok (CYCLING_TYPES ++ ["Run"])
    ∧ (∀ input seg, seg ∈ splitOnChar ',' input → trimStr seg ≠ "" →
        lowerStr (trimStr seg) ≠ "cycling" →
        lowerStr (trimStr seg) ≠ "running" →
        lowerStr (trimStr seg) ≠ "all" →
        ∃ ts, parse_activity_types input = Except.ok ts ∧ trimStr seg ∈ ts)
    ∧ parse_activity_types "" =
        Except.error "No valid activity types specified"
    ∧ parse_activity_types "  , ,  " =
        Except.error "No valid activity types specified" := by
  refine ⟨⟨rfl, by decide, by decide, by decide⟩,
    ⟨rfl, by decide, by decide⟩, rfl, rfl, ?_, rfl, rfl⟩
  intro input seg hmem hne h1 h2 h3
  have hin : trimStr seg ∈ collectTypes [] (splitOnChar ',' input) :=
    collectTypes_passthrough (splitOnChar ',' input) [] seg hmem hne h1 h2 h3
  have hnonempty : collectTypes [] (splitOnChar ',' input) ≠ [] := by
    intro hempty
    rw [hempty] at hin
    cases hin
  refine ⟨collectTypes [] (splitOnChar ',' input), ?_, hin⟩
  unfold parse_activity_types
  rw [if_neg hnonempty]

/-- Witness for C6: the pass-through clause at the mixed input, recovering
the literal "Run" segment. -/
theorem parse_activity_types_resolution_witness :
    ∃ ts, parse_activity_types "cycling,Run,Walk" = Except.ok ts ∧
      trimStr "Run" ∈ ts :=
  parse_activity_types_resolution.2.2.2.2.1 "cycling,Run,Walk" "Run"
    (by decide) (by decide) (by decide) (by decide) (by decide)

/-! ## Date parsing and the midnight conversion (claim C10)

`parse_date` (src/main.rs line 317) wraps chrono's
`NaiveDate::parse_from_str(date_str, "%Y-%m-%d")`; the fetch then calls
`.and_hms_opt(0, 0, 0).unwrap().and_utc().timestamp()`.  The chrono
semantics are embedded: a parse succeeds only on a valid proleptic
Gregorian date, `and_hms_opt` validates only the time-of-day fields, and
the epoch conversion counts days from 1970-01-01. -/

structure NaiveDate where
  year : Int
  month : Nat
  day : Nat
deriving DecidableEq, Repr

def isLeapYear (y : Int) : Bool :=
  y % 4 = 0 && (y % 100 != 0 || y % 400 = 0)

def daysInMonth (y : Int) (m : Nat) : Nat :=
  if m = 2 then (if isLeapYear y then 29 else 28)
  else if m = 4 ∨ m = 6 ∨ m = 9 ∨ m = 11 then 30
  else 31

/-- chrono `NaiveDate::from_ymd_opt`: `Some` exactly on a valid calendar
date. -/
def NaiveDate.from_ymd_opt (y : Int) (m d : Nat) : Option NaiveDate :=
  if 1 ≤ m ∧ m ≤ 12 ∧ 1 ≤ d ∧ d ≤ daysInMonth y m then
    some ⟨y, m, d⟩
  else
    none

/-- Digit-string to number, `none` on empty or non-digit input. -/
def digitsToNat (l : List Char) : Option Nat :=
  if l ≠ [] ∧ l.all Char.isDigit then
    some (l.foldl (fun n c => n * 10 + (c.toNat - 48)) 0)
  else
    none

/-- Rust `parse_date`: chrono parse with format "%Y-%m-%d", i.e. three
dash-separated numeric fields forming a valid calendar date. -/
def parse_date (date_str : String) : Except String NaiveDate :=
  match splitOnChar '-' date_str with
  | [ys, ms, ds] =>
    match digitsToNat ys.data, digitsToNat ms.data, digitsToNat ds.data with
    | some y, some m, some d =>
      match NaiveDate.from_ymd_opt (Int.ofNat y) m d with
      | some date => Except.ok date
      | none => Except.error "Date must be in YYYY-MM-DD format"
    | _, _, _ => Except.error "Date must be in YYYY-MM-DD format"
  | _ => Except.error "Date must be in YYYY-MM-DD format"

structure NaiveDateTime where
  date : NaiveDate
  hour : Nat
  minute : Nat
  second : Nat
deriving DecidableEq, Repr

/-- chrono `NaiveDate::and_hms_opt`: `Some` exactly when the time-of-day is
valid; the date part is never re-checked. -/
def NaiveDate.and_hms_opt (d : NaiveDate) (hour minute second : Nat) :
    Option NaiveDateTime :=
  if hour ≤ 23 ∧ minute ≤ 59 ∧ second ≤ 59 then
    some ⟨d, hour, minute, second⟩
  else
    none

/-- Days between the civil date and 1970-01-01 (proleptic Gregorian). -/
def daysFromCivil (y : Int) (m d : Nat) : Int :=
  let yAdj : Int := if m ≤ 2 then y - 1 else y
  let era : Int := yAdj.fdiv 400
  let yoe : Int := yAdj - era * 400
  let mp : Int := (Int.ofNat m + 9) % 12
  let doy : Int := (153 * mp + 2).fdiv 5 + Int.ofNat d - 1
  let doe : Int := yoe * 365 + yoe.fdiv 4 - yoe.fdiv 100 + doy
  era * 146097 + doe - 719468

/-- chrono `.and_utc().timestamp()`: epoch seconds of the UTC instant. -/
def NaiveDateTime.timestamp (dt : NaiveDateTime) : Int :=
  daysFromCivil dt.date.year dt.date.month dt.date.day * 86400
    + dt.hour * 3600 + dt.minute * 60 + dt.second

/-- Whatever `parse_date` returns is a valid calendar date. -/
theorem parse_date_valid (s : String) (d : NaiveDate)
    (h : parse_date s = Except.ok d) :
    1 ≤ d.month ∧ d.month ≤ 12 ∧ 1 ≤ d.day ∧
      d.day ≤ daysInMonth d.year d.month := by
  unfold parse_date at h
  split at h
  · split at h
    · rename_i y m dd hy hm hd
      unfold NaiveDate.from_ymd_opt at h
      split at h
      · rename_i date heq
        split at heq
        · rename_i hvalid
          cases heq
          cases h
          exact hvalid
        · cases heq
      · cases h
    · cases h
  · cases h

/-- Claim C10: every date produced by `parse_date` is a valid calendar
date, its conversion to midnight via `and_hms_opt 0 0 0` always returns
`some` (so the unwrap in `fetch_strava_data_since` cannot panic), and the
epoch-seconds conversion is defined on all of `parse_date`'s outputs. -/
theorem parse_date_midnight_total (s : String) (d : NaiveDate)
    (h : parse_date s = Except.ok d) :
    (1 ≤ d.month ∧ d.month ≤ 12 ∧ 1 ≤ d.day ∧
      d.day ≤ daysInMonth d.year d.month)
    ∧ ∃ dt, d.and_hms_opt 0 0 0 = some dt ∧
        (d.and_hms_opt 0 0 0).map NaiveDateTime.timestamp =
          some dt.timestamp := by
  refine ⟨parse_date_valid s d h, ⟨⟨d, 0, 0, 0⟩, ?_, ?_⟩⟩ <;>
    simp [NaiveDate.and_hms_opt]

/-- Witness for C10 at the concrete date 2024-01-15. -/
theorem parse_date_midnight_total_witness :
    (1 ≤ (⟨2024, 1, 15⟩ : NaiveDate).month
      ∧ (⟨2024, 1, 15⟩ : NaiveDate).month ≤ 12
      ∧ 1 ≤ (⟨2024, 1, 15⟩ : NaiveDate).day
      ∧ (⟨2024, 1, 15⟩ : NaiveDate).day ≤
          daysInMonth (⟨2024, 1, 15⟩ : NaiveDate).year
            (⟨2024, 1, 15⟩ : NaiveDate).month)
    ∧ ∃ dt, (⟨2024, 1, 15⟩ : NaiveDate).and_hms_opt 0 0 0 = some dt ∧
        ((⟨2024, 1, 15⟩ : NaiveDate).and_hms_opt 0 0 0).map
          NaiveDateTime.timestamp = some dt.timestamp :=
  parse_date_midnight_total "2024-01-15" ⟨2024, 1, 15⟩ rfl

end ChainLife
